import Mathlib

/-!
Verification of the OSDR File Downloader (`osdr_downloader.py`).

The Python source is shallowly embedded below: every function that the
claims touch is translated into an executable Lean definition.  HTTP
transport, the filesystem and the JSON wire format are modelled by
explicit data types (`DiscResponse`, `QueryResponse`, `NetEnv`) whose
constructors correspond to the observable outcomes the Python code
distinguishes (`requests` exception, error body, record list, ...).
All strings handled by the program are ASCII, so `Char.toLower` based
lowering coincides with Python's `str.lower` on every input considered.
-/

/-! ## String utilities (embedding Python `str` operations) -/

/-- Python's `sub in s` substring test, on code points. -/
def containsAux (pat : List Char) : List Char → Bool
  | [] => pat.isEmpty
  | c :: rest => pat.isPrefixOf (c :: rest) || containsAux pat rest

/-- Python `pat in s` for strings. -/
def strContains (s pat : String) : Bool := containsAux pat.data s.data

/-- Python `s.startswith(pre)`. -/
def strStartsWith (s pre : String) : Bool := pre.data.isPrefixOf s.data

/-- Python `s.lower()` (ASCII lowering; inputs in this program are ASCII). -/
def strToLower (s : String) : String := ⟨s.data.map Char.toLower⟩

/-- Python `s.replace(tgt, repl)` for a single-character target. -/
def replaceChar (tgt : Char) (repl : List Char) : List Char → List Char
  | [] => []
  | c :: cs => (if c = tgt then repl else [c]) ++ replaceChar tgt repl cs

/-- Truthiness of an optional-string argument, Python `if s:` where `s`
is `None` or a `str`. -/
def optTruthy (o : Option String) : Bool := !((o.getD "") = "")

/-! ## Regular-expression fragment

The five classifier patterns use only literals, `\d+`, `.*` and an
alternation of literals, all anchored at the start (`^`) with no end
anchor; `re.search` on such a pattern succeeds iff some prefix of the
subject decomposes along the token list.  `.` excludes the newline
character, `\d` is a decimal digit (all subjects here are ASCII). -/

inductive RTok
  | lit (l : List Char)
  | digits
  | anystar
  | alt (ss : List (List Char))

/-- Weight of a token, used as fuel contribution. -/
def tokW : RTok → Nat
  | RTok.lit _ => 1
  | RTok.digits => 1
  | RTok.anystar => 1
  | RTok.alt ss => ss.length + 1

/-- Total weight of a token list. -/
def patW : List RTok → Nat
  | [] => 0
  | t :: ts => tokW t + patW ts

/-- Fuel-indexed matcher: does some prefix of `cs` match the token
sequence `ts`?  Each recursive call strictly decreases
`cs.length + patW ts`, so `cs.length + patW ts + 1` fuel is exact. -/
def reMatchF : Nat → List RTok → List Char → Bool
  | 0, _, _ => false
  | _ + 1, [], _ => true
  | f + 1, RTok.lit l :: ts, cs =>
      l.isPrefixOf cs && reMatchF f ts (cs.drop l.length)
  | _ + 1, RTok.alt [] :: _, _ => false
  | f + 1, RTok.alt (l :: ls) :: ts, cs =>
      (l.isPrefixOf cs && reMatchF f ts (cs.drop l.length)) ||
        reMatchF f (RTok.alt ls :: ts) cs
  | _ + 1, RTok.digits :: _, [] => false
  | f + 1, RTok.digits :: ts, c :: cs =>
      c.isDigit && (reMatchF f ts cs || reMatchF f (RTok.digits :: ts) cs)
  | f + 1, RTok.anystar :: ts, [] => reMatchF f ts []
  | f + 1, RTok.anystar :: ts, c :: cs =>
      reMatchF f ts (c :: cs) || (!(c = '\n') && reMatchF f (RTok.anystar :: ts) cs)

/-- `re.search(pattern, cs)` for an anchored pattern `ts`. -/
def reMatch (ts : List RTok) (cs : List Char) : Bool :=
  reMatchF (cs.length + patW ts + 1) ts cs

/-! ## Classifier: `is_genelab_processed` -/

/-- The five filename regexes of `is_genelab_processed`, verbatim,
including their (case-sensitive) upper-case literals. -/
def genelabPatterns : List (List RTok) :=
  [ [RTok.lit "GLDS-".data, RTok.digits, RTok.lit "_".data, RTok.anystar,
     RTok.lit "_".data,
     RTok.alt ["unnormalized".data, "normalized".data, "differential".data],
     RTok.anystar, RTok.lit "counts".data],
    [RTok.lit "GLDS-".data, RTok.digits, RTok.lit "_".data, RTok.anystar,
     RTok.lit "_differential_expression".data],
    [RTok.lit "GLDS-".data, RTok.digits, RTok.lit "_".data, RTok.anystar,
     RTok.lit "_".data, RTok.alt ["VST".data, "RSEM".data, "STAR".data],
     RTok.lit "_".data, RTok.anystar, RTok.lit "counts".data],
    [RTok.lit "GLDS-".data, RTok.digits, RTok.lit "_".data, RTok.anystar,
     RTok.lit "_contrasts".data],
    [RTok.lit "GLDS-".data, RTok.digits, RTok.lit "_".data, RTok.anystar,
     RTok.lit "_sampletable".data] ]

/-- The `genelab_data_types` keyword list. -/
def genelabDataTypes : List String :=
  ["unnormalized counts", "normalized counts", "differential expression",
   "sample table", "differential expression contrasts"]

/-- Signal 1: protocol ref contains both marker phrases (case-insensitive). -/
def sigProtocol (protocol_ref : String) : Bool :=
  strContains (strToLower protocol_ref) "genelab" &&
    strContains (strToLower protocol_ref) "data processing protocol"

/-- Signal 2: file category contains both marker phrases (case-insensitive). -/
def sigCategory (file_category : String) : Bool :=
  strContains (strToLower file_category) "genelab processed" &&
    strContains (strToLower file_category) "files"

/-- Signal 3: the lowered filename matches one of `genelabPatterns`. -/
def sigFilename (filename : String) : Bool :=
  genelabPatterns.any (fun p => reMatch p (strToLower filename).data)

/-- Signal 4: the lowered data type contains one of `genelabDataTypes`. -/
def sigDataType (data_type : String) : Bool :=
  genelabDataTypes.any (fun dt => strContains (strToLower data_type) dt)

/-- `OSdRDownloader.is_genelab_processed`: the four signals checked in
source order, each guarded by the Python truthiness test of its input. -/
def is_genelab_processed (filename data_type file_category protocol_ref : String) : Bool :=
  if !(protocol_ref = "") && sigProtocol protocol_ref then true
  else if !(file_category = "") && sigCategory file_category then true
  else if sigFilename filename then true
  else if !(data_type = "") && sigDataType data_type then true
  else false

/-! ## Data model: file records -/

/-- A metadata record as consumed by the script: the six fields it reads
with `record.get(...)`; an absent key is `none`. -/
structure FileRecord where
  file_name : Option String := none
  data_type : Option String := none
  file_size : Option Nat := none
  category : Option String := none
  protocol_ref : Option String := none
  remote_url : Option String := none

/-! ## Combination Discoverer: `get_measurement_tech_combinations` -/

/-- A record of the discovery queries: the measurement/technology fields
of the first query, the filename/data-type fields of the second. -/
structure DiscRecord where
  measurement : Option String := none
  technology : Option String := none
  file_name : Option String := none
  data_type : Option String := none

/-- Observable outcome of one discovery HTTP request:
`failure` is any raised `requests` / JSON-decoding exception (including a
failing HTTP status via `raise_for_status`); `errorDict` a parsed body
that is a dict with an `error` key; `falsyNonList` a falsy parsed body
that is not a list (`{}`, JSON `null`, `0`, `""`, `false`), which fails
the `if not data` test; `truthyNonList` a truthy parsed body that is
neither a list nor an error dict (a plain dict, a string, a number),
whose `len`/iteration/`record.get` raises inside the `try`; `records` a
parsed record array. -/
inductive DiscResponse
  | failure
  | errorDict
  | falsyNonList
  | truthyNonList
  | records (rs : List DiscRecord)

/-- Append a pair to the accumulated set unless already present
(insertion-ordered model of the Python `set`). -/
def addCombo (l : List (String × String)) (p : String × String) : List (String × String) :=
  if p ∈ l then l else l ++ [p]

/-- The first harvesting loop: keep `(measurement, tech)` when both are
truthy and neither is the literal string `"null"`. -/
def collectCombos (rs : List DiscRecord) : List (String × String) :=
  rs.foldl (fun acc r =>
    let m := r.measurement.getD ""
    let t := r.technology.getD ""
    if !(m = "") && !(t = "") && !(m = "null") && !(t = "null") then
      addCombo acc (m, t)
    else acc) []

/-- The filename/data-type inference loop of the second discovery query. -/
def inferCombos (rs : List DiscRecord) : List (String × String) :=
  rs.foldl (fun acc r =>
    let fn := strToLower (r.file_name.getD "")
    let dt := strToLower (r.data_type.getD "")
    if strContains fn "rna" || strContains dt "rna" then
      if strContains fn "seq" || strContains dt "seq" then
        addCombo acc ("transcription profiling", "RNA sequencing")
      else
        addCombo acc ("transcription profiling", "RNA-Seq")
    else if strContains fn "microarray" || strContains dt "microarray" then
      addCombo acc ("transcription profiling", "microarray")
    else if strContains fn "proteom" || strContains dt "mass" then
      addCombo acc ("protein expression profiling", "mass spectrometry")
    else acc) []

/-- The hard-coded fallback pair. -/
def default_combination : String × String := ("transcription profiling", "RNA sequencing")

/-- `OSdRDownloader.get_measurement_tech_combinations`, as a function of
the outcomes of its two HTTP requests, following the source's branch
order: an error dict is returned as `[]` first, then any falsy body
(empty dict/list, `null`, ...) as `[]`; a truthy non-list body reaches
the record loop whose `len`/`record.get` raises, landing in the
`except Exception` handler that returns the default pair.  On the second
request there is no error-dict or emptiness check: any raised exception
(including iterating an `errorDict`/`truthyNonList` body) yields the
default pair, and a falsy body just skips inference, after which the
empty combination set is topped up with the default pair. -/
def get_measurement_tech_combinations (resp basicResp : DiscResponse) :
    List (String × String) :=
  match resp with
  | DiscResponse.failure => [default_combination]
  | DiscResponse.errorDict => []
  | DiscResponse.falsyNonList => []
  | DiscResponse.truthyNonList => [default_combination]
  | DiscResponse.records rs =>
    if rs.isEmpty then []
    else
      let combos := collectCombos rs
      if combos.isEmpty then
        match basicResp with
        | DiscResponse.failure => [default_combination]
        | DiscResponse.errorDict => [default_combination]
        | DiscResponse.falsyNonList => [default_combination]
        | DiscResponse.truthyNonList => [default_combination]
        | DiscResponse.records basic =>
          let inferred := if basic.isEmpty then combos else inferCombos basic
          if inferred.isEmpty then [default_combination] else inferred
      else combos

/-! ## Metadata Client: `query_files` -/

/-- Parsed JSON body shapes the script distinguishes: a record array, a
mapping (with optional `error` string and optional `data` member), or
any other JSON value. -/
inductive JBody
  | jarr (rs : List FileRecord)
  | jobj (err : Option String) (dat : Option JBody)
  | jother

/-- Observable outcome of the metadata query request. -/
inductive QueryResponse
  | transportError
  | response (status : Nat) (body : JBody)

/-- `OSdRDownloader.query_files` as a function of the request outcome:
`Except.error` is a raised exception, `Except.ok` the returned list. -/
def query_files (resp : QueryResponse) : Except String (List FileRecord) :=
  match resp with
  | QueryResponse.transportError => Except.error "Failed to query API"
  | QueryResponse.response status body =>
    if 400 ≤ status ∧ status < 600 then Except.error "Failed to query API"
    else
      match body with
      | JBody.jobj (some e) _ => Except.error ("API Error: " ++ e)
      | JBody.jobj none (some (JBody.jarr rs)) => Except.ok rs
      | JBody.jobj none (some _) => Except.error "Expected list response"
      | JBody.jobj none none => Except.error "Unexpected response format"
      | JBody.jarr rs => Except.ok rs
      | JBody.jother => Except.error "Expected list response"

/-- Does `query_files` raise? -/
def queryRaised {α : Type} : Except String α → Bool
  | Except.error _ => true
  | Except.ok _ => false

/-- Modelled from the spec: "the parsed body, after unwrapping an
optional `data` field, is not an array" (claim C5's last condition). -/
def notArrayAfterUnwrap : JBody → Bool
  | JBody.jarr _ => false
  | JBody.jobj _ (some (JBody.jarr _)) => false
  | JBody.jobj _ (some _) => true
  | JBody.jobj _ none => true
  | JBody.jother => true

/-- Modelled from the spec: the five raise conditions enumerated by
claim C5 (transport fault, failing HTTP status, `error` key, mapping
with neither `data` nor `error`, non-array after unwrapping). -/
def query_raises_spec (resp : QueryResponse) : Prop :=
  resp = QueryResponse.transportError
  ∨ (∃ status body, resp = QueryResponse.response status body ∧ 400 ≤ status ∧ status < 600)
  ∨ (∃ status e dat, resp = QueryResponse.response status (JBody.jobj (some e) dat))
  ∨ (∃ status, resp = QueryResponse.response status (JBody.jobj none none))
  ∨ (∃ status body, resp = QueryResponse.response status body ∧ notArrayAfterUnwrap body = true)

/-! ## Query Builder: `build_metadata_query_url` -/

/-- Characters `urllib.parse.quote` leaves unescaped with its default
`safe='/'`: ASCII letters, digits, `_.-~` and `/`. -/
def isSafeChar (c : Char) : Bool :=
  c.isAlpha || c.isDigit || ['_', '.', '-', '~', '/'].contains c

/-- Upper-case hexadecimal digit. -/
def hexDigitChar (n : Nat) : Char :=
  ['0', '1', '2', '3', '4', '5', '6', '7', '8', '9',
   'A', 'B', 'C', 'D', 'E', 'F'].getD (n % 16) '0'

/-- UTF-8 bytes of a code point (as `Nat`s below 256). -/
def utf8Bytes (c : Char) : List Nat :=
  let n := c.toNat
  if n < 128 then [n]
  else if n < 2048 then [192 + n / 64, 128 + n % 64]
  else if n < 65536 then [224 + n / 4096, 128 + n / 64 % 64, 128 + n % 64]
  else [240 + n / 262144, 128 + n / 4096 % 64, 128 + n / 64 % 64, 128 + n % 64]

/-- `%XX` escape of one byte. -/
def percentByte (b : Nat) : List Char := ['%', hexDigitChar (b / 16), hexDigitChar (b % 16)]

/-- `urllib.parse.quote(c)` for one character. -/
def quoteChar (c : Char) : List Char :=
  if isSafeChar c then [c] else (utf8Bytes c).flatMap percentByte

/-- `urllib.parse.quote(s)` with the default safe set. -/
def urlQuote (s : String) : String := ⟨s.data.flatMap quoteChar⟩

/-- `measurement.replace('(', '.*').replace(')', '.*')`. -/
def replaceParens (s : String) : String :=
  ⟨replaceChar ')' ['.', '*'] (replaceChar '(' ['.', '*'] s.data)⟩

/-- `self.base_url`. -/
def base_url : String := "https://visualization.osdr.nasa.gov/biodata/api/v2"

/-- The fixed leading query parts. -/
def baseQueryParts (osd : String) : List String :=
  ["id.accession=" ++ osd, "file.file_name", "file.data_type", "file.file_size",
   "file.remote_url", "file.category", "assay.protocol ref", "format=json.records"]

/-- The measurement-type query fragment built from a truthy `measurement`. -/
def measurementPart (measurement : String) : String :=
  "investigation.study%20assays.study%20assay%20measurement%20type=/" ++
    urlQuote (replaceParens measurement) ++ "/"

/-- The technology-type query fragment built from a truthy `tech`. -/
def techPart (tech : String) : String :=
  "investigation.study%20assays.study%20assay%20technology%20type=/" ++
    urlQuote (replaceParens tech) ++ "/"

/-- `OSdRDownloader.build_metadata_query_url`. -/
def build_metadata_query_url (osd : String)
    (measurement tech ext exclude_ext : Option String) (genelab_only : Bool) : String :=
  let query_parts := baseQueryParts osd
  let query_parts := query_parts ++
    (if genelab_only then ["file.category=/GeneLab%20Processed%20.*%20Files/"] else [])
  let query_parts := query_parts ++
    (if optTruthy measurement then [measurementPart (measurement.getD "")] else [])
  let query_parts := query_parts ++
    (if optTruthy tech then [techPart (tech.getD "")] else [])
  let encoded_parts := query_parts.filter (fun p =>
    !(strStartsWith p "file.file_name=") && !(strStartsWith p "file.file_name!="))
  let regex_parts :=
    (if optTruthy ext then ["file.file_name=/\\." ++ ext.getD "" ++ "$/"] else []) ++
    (if optTruthy exclude_ext then ["file.file_name!=/\\." ++ exclude_ext.getD "" ++ "$/"] else [])
  base_url ++ "/query/metadata/?" ++ String.intercalate "&" (encoded_parts ++ regex_parts)

/-! ## Downloader: `download_file` -/

/-- Outcomes of the two streaming GET/write attempts: whether the
primary endpoint attempt succeeds, and whether the attempt at a given
fallback URL succeeds. -/
structure NetEnv where
  primary : Bool
  fallback : String → Bool

/-- The fixed fallback host prefix. -/
def osdr_host : String := "https://visualization.osdr.nasa.gov"

/-- `OSdRDownloader.download_file`: besides the returned boolean, the
second component records the fallback URLs actually attempted. -/
def download_file (net : NetEnv) (filename : String) (record : FileRecord) :
    Bool × List String :=
  if net.primary then (true, [])
  else
    match record.remote_url with
    | none => (false, [])
    | some remote_url =>
      if remote_url = "" then (false, [])
      else
        let full_url :=
          if strStartsWith remote_url "http" then remote_url
          else osdr_host ++ remote_url
        (net.fallback full_url, [full_url])

/-! ## Orchestrated pass: `process_files` -/

/-- The stats dictionary (`genelabCount` embeds the `'genelab'` key). -/
structure DownloadStats where
  total : Nat
  downloaded : Nat
  failed : Nat
  genelabCount : Nat

/-- Body of the `for record in data:` deduplication loop. -/
def dedupAux (seen : List String) : List FileRecord → List FileRecord
  | [] => []
  | r :: rs =>
    match r.file_name with
    | none => dedupAux seen rs
    | some fn =>
      if fn = "" then dedupAux seen rs
      else if fn ∈ seen then dedupAux seen rs
      else r :: dedupAux (fn :: seen) rs

/-- The deduplicated `unique_files` list. -/
def dedupByFilename (data : List FileRecord) : List FileRecord := dedupAux [] data

/-- The count printed as "Removed N duplicate file entries". -/
def removedDuplicates (data : List FileRecord) : Nat :=
  data.length - (dedupByFilename data).length

/-- The truthy filenames of a record list, in order. -/
def truthyFilenames (data : List FileRecord) : List String :=
  data.filterMap (fun r =>
    match r.file_name with
    | some fn => if fn = "" then none else some fn
    | none => none)

/-- Body of the main `for record in unique_files:` loop; `dl` abstracts
the outcome of `download_file` for a record, the second accumulator
component records which files a download was attempted for. -/
def processStep (dl : FileRecord → Bool) (list_only : Bool)
    (acc : DownloadStats × List FileRecord) (record : FileRecord) :
    DownloadStats × List FileRecord :=
  match record.file_name with
  | none => acc
  | some filename =>
    if filename = "" then acc
    else
      let is_genelab := is_genelab_processed filename (record.data_type.getD "")
        (record.category.getD "") (record.protocol_ref.getD "")
      let s0 := acc.1
      let s1 : DownloadStats :=
        ⟨s0.total + 1, s0.downloaded, s0.failed,
         s0.genelabCount + (if is_genelab then 1 else 0)⟩
      if list_only then (s1, acc.2)
      else if dl record then ({ s1 with downloaded := s1.downloaded + 1 }, acc.2 ++ [record])
      else ({ s1 with failed := s1.failed + 1 }, acc.2 ++ [record])

/-- `OSdRDownloader.process_files`. -/
def process_files (dl : FileRecord → Bool) (data : List FileRecord) (list_only : Bool) :
    DownloadStats × List FileRecord :=
  if data.isEmpty then (⟨0, 0, 0, 0⟩, [])
  else (dedupByFilename data).foldl (processStep dl list_only) (⟨0, 0, 0, 0⟩, [])

/-! ## Theorems -/

/-- Claim C1, as stated, is false: when the first discovery query parses
to an empty record list, `get_measurement_tech_combinations` returns the
empty list, not the default pair — the result is not non-empty. -/
theorem combination_discoverer_counterexample :
    get_measurement_tech_combinations (DiscResponse.records []) (DiscResponse.records []) = [] :=
  rfl

/-- Helper: on a non-empty first-query record list the Combination
Discoverer never returns the empty list. -/
theorem getCombos_records_ne_nil (r : DiscRecord) (rs' : List DiscRecord)
    (basicResp : DiscResponse) :
    get_measurement_tech_combinations (DiscResponse.records (r :: rs')) basicResp ≠ [] := by
  simp only [get_measurement_tech_combinations, List.isEmpty_cons, Bool.false_eq_true, if_false]
  by_cases hc : (collectCombos (r :: rs')).isEmpty
  · rw [if_pos hc]
    cases basicResp with
    | failure => simp
    | errorDict => simp
    | falsyNonList => simp
    | truthyNonList => simp
    | records basic =>
      dsimp only
      by_cases hb : (if basic.isEmpty then collectCombos (r :: rs')
          else inferCombos basic).isEmpty
      · rw [if_pos hb]; simp
      · rw [if_neg hb]
        have hb' : (if basic.isEmpty then collectCombos (r :: rs')
            else inferCombos basic).isEmpty = false := by simpa using hb
        exact List.isEmpty_eq_false.mp hb'
  · rw [if_neg hc]
    have hc' : (collectCombos (r :: rs')).isEmpty = false := by simpa using hc
    exact List.isEmpty_eq_false.mp hc'

/-- Claim C1 (amended): the Combination Discoverer never raises.  A
caught transport/parse exception on the first request yields exactly the
default pair, for every second-request outcome.  When the first request
yields records that produce no combination, every degradation path of
the second step — a caught exception, an error-dict or any other truthy
non-list body (whose iteration raises into the same handler), a falsy
body that skips inference, or an inference that finds nothing — again
yields exactly the default pair.  However the result is empty, rather
than the default pair, precisely when the first request returns an
error dict, a falsy non-list body, or an empty record list. -/
theorem combination_discoverer_default (resp basicResp : DiscResponse) :
    get_measurement_tech_combinations DiscResponse.failure basicResp = [default_combination] ∧
    (∀ rs : List DiscRecord, rs ≠ [] → collectCombos rs = [] →
      get_measurement_tech_combinations (DiscResponse.records rs) DiscResponse.failure =
        [default_combination] ∧
      get_measurement_tech_combinations (DiscResponse.records rs) DiscResponse.errorDict =
        [default_combination] ∧
      get_measurement_tech_combinations (DiscResponse.records rs) DiscResponse.truthyNonList =
        [default_combination] ∧
      get_measurement_tech_combinations (DiscResponse.records rs) DiscResponse.falsyNonList =
        [default_combination] ∧
      (∀ basic : List DiscRecord, inferCombos basic = [] →
        get_measurement_tech_combinations (DiscResponse.records rs)
          (DiscResponse.records basic) = [default_combination])) ∧
    (get_measurement_tech_combinations resp basicResp = [] ↔
      resp = DiscResponse.errorDict ∨ resp = DiscResponse.falsyNonList ∨
        resp = DiscResponse.records []) := by
  refine ⟨rfl, ?_, ?_⟩
  · intro rs hne hc
    have hie : rs.isEmpty = false := by
      cases rs with
      | nil => exact absurd rfl hne
      | cons a l => rfl
    have hce : (collectCombos rs).isEmpty = true := by rw [hc]; rfl
    refine ⟨?_, ?_, ?_, ?_, ?_⟩
    · simp [get_measurement_tech_combinations, hie, hce]
    · simp [get_measurement_tech_combinations, hie, hce]
    · simp [get_measurement_tech_combinations, hie, hce]
    · simp [get_measurement_tech_combinations, hie, hce]
    · intro basic hb
      cases basic with
      | nil => simp [get_measurement_tech_combinations, hie, hce, hc]
      | cons b bs => simp [get_measurement_tech_combinations, hie, hce, hb]
  · cases resp with
    | failure => simp [get_measurement_tech_combinations]
    | errorDict => simp [get_measurement_tech_combinations]
    | falsyNonList => simp [get_measurement_tech_combinations]
    | truthyNonList => simp [get_measurement_tech_combinations]
    | records rs =>
      cases rs with
      | nil => simp [get_measurement_tech_combinations]
      | cons r rs' =>
        constructor
        · intro h
          exact absurd h (getCombos_records_ne_nil r rs' basicResp)
        · rintro (h | h | h) <;> simp at h

/-- Witness for C1 (amended) at concrete inputs: one record with neither
field present collects no combination; a second-request exception and a
failed inference over `image.png` both degrade to the default pair. -/
theorem combination_discoverer_default_witness :
    get_measurement_tech_combinations (DiscResponse.records [{ }]) DiscResponse.failure =
      [default_combination] ∧
    get_measurement_tech_combinations (DiscResponse.records [{ }])
      (DiscResponse.records [{ file_name := some "image.png" }]) = [default_combination] := by
  obtain ⟨h1, h2, h3, h4, h5⟩ :=
    (combination_discoverer_default (DiscResponse.records [{ }]) DiscResponse.failure).2.1
      [{ }] (List.cons_ne_nil _ _) rfl
  exact ⟨h1, h5 [{ file_name := some "image.png" }] rfl⟩

/-- Claim C2: the code is wrong — the classifier lowercases the filename
but matches it against regexes whose `GLDS`/`VST`/`RSEM`/`STAR` literals
are upper-case, so the filename-pattern fallback can never fire; in
particular the spec's example record (empty protocol ref, empty category,
no data-type keyword) is classified raw, not processed. -/
theorem classifier_pattern_fallback_dead :
    is_genelab_processed "GLDS-121_rna_seq_unnormalized_counts.csv" "" "" "" = false ∧
    reMatch [RTok.lit "GLDS-".data, RTok.digits, RTok.lit "_".data, RTok.anystar,
      RTok.lit "_".data,
      RTok.alt ["unnormalized".data, "normalized".data, "differential".data],
      RTok.anystar, RTok.lit "counts".data]
      "GLDS-121_rna_seq_unnormalized_counts.csv".data = true := by
  exact ⟨by decide, by decide⟩

/-- Claim C3: the classifier's four signals are checked in strict
priority order: a protocol-ref match alone forces `true` whatever the
other arguments are, and when none of the four signals matches the
result is `false` (raw). -/
theorem classifier_priority (filename data_type file_category protocol_ref : String) :
    (sigProtocol protocol_ref = true →
      is_genelab_processed filename data_type file_category protocol_ref = true) ∧
    (sigProtocol protocol_ref = false → sigCategory file_category = false →
      sigFilename filename = false → sigDataType data_type = false →
      is_genelab_processed filename data_type file_category protocol_ref = false) := by
  constructor
  · intro h
    have hne : ¬(protocol_ref = "") := by
      intro he
      rw [he] at h
      exact absurd h (by decide)
    simp [is_genelab_processed, h, hne]
  · intro h1 h2 h3 h4
    simp [is_genelab_processed, h1, h2, h3, h4]

/-- Witness for C3 at concrete inputs. -/
theorem classifier_priority_witness :
    is_genelab_processed "raw_reads.fastq" "" "" "GeneLab Data Processing Protocol" = true ∧
    is_genelab_processed "raw_reads.fastq" "" "" "" = false :=
  ⟨(classifier_priority "raw_reads.fastq" "" "" "GeneLab Data Processing Protocol").1 (by decide),
   (classifier_priority "raw_reads.fastq" "" "" "").2 (by decide) (by decide) (by decide) (by decide)⟩

/-- Claim C4: `download_file` always returns a boolean (it is total and
never raises); a successful primary attempt makes no fallback attempt;
a failed primary attempt with an absent or empty remote-url returns
`false` immediately with no fallback attempt; a failed primary attempt
with a non-empty remote-url makes exactly one fallback attempt — at the
stored URL, host-prefixed when not already absolute — and returns that
attempt's outcome. -/
theorem downloader_fallback (net : NetEnv) (filename : String) (record : FileRecord) :
    (net.primary = true → download_file net filename record = (true, [])) ∧
    (net.primary = false → (record.remote_url = none ∨ record.remote_url = some "") →
      download_file net filename record = (false, [])) ∧
    (net.primary = false → ∀ ru, record.remote_url = some ru → ru ≠ "" →
      download_file net filename record =
        (net.fallback (if strStartsWith ru "http" then ru else osdr_host ++ ru),
         [if strStartsWith ru "http" then ru else osdr_host ++ ru])) := by
  refine ⟨?_, ?_, ?_⟩
  · intro h
    simp [download_file, h]
  · intro h hr
    rcases hr with hr | hr <;> simp [download_file, h, hr]
  · intro h ru hru hne
    simp [download_file, h, hru, hne]

/-- Witness for C4: a failed primary with a relative remote-url yields
one host-prefixed fallback attempt whose outcome is returned; a failed
primary with no remote-url yields `(false, [])`. -/
theorem downloader_fallback_witness :
    download_file ⟨false, fun _ => true⟩ "a.csv"
        { remote_url := some "/osdr/data/a.csv" } =
      (true, ["https://visualization.osdr.nasa.gov/osdr/data/a.csv"]) ∧
    download_file ⟨false, fun _ => true⟩ "a.csv" { } = (false, []) := by
  constructor
  · have h := (downloader_fallback ⟨false, fun _ => true⟩ "a.csv"
      { remote_url := some "/osdr/data/a.csv" }).2.2 rfl "/osdr/data/a.csv" rfl (by decide)
    rw [h]
    rfl
  · exact (downloader_fallback ⟨false, fun _ => true⟩ "a.csv" { }).2.1 rfl (Or.inl rfl)

/-- Claim C5: `query_files` raises exactly under the five enumerated
conditions, and on success returns the (possibly `data`-unwrapped)
record array itself. -/
theorem query_files_error_conditions (resp : QueryResponse) :
    (queryRaised (query_files resp) = true ↔ query_raises_spec resp) ∧
    (∀ status rs, ¬(400 ≤ status ∧ status < 600) →
      query_files (QueryResponse.response status (JBody.jarr rs)) = Except.ok rs ∧
      query_files (QueryResponse.response status (JBody.jobj none (some (JBody.jarr rs)))) =
        Except.ok rs) := by
  constructor
  · cases resp with
    | transportError =>
      simp only [query_files, queryRaised, true_iff]
      exact Or.inl rfl
    | response status body =>
      by_cases hs : 400 ≤ status ∧ status < 600
      · have hq : query_files (QueryResponse.response status body) =
            Except.error "Failed to query API" := by
          simp only [query_files, if_pos hs]
        rw [hq]
        simp only [queryRaised, true_iff]
        exact Or.inr (Or.inl ⟨status, body, rfl, hs.1, hs.2⟩)
      · cases body with
        | jarr rs =>
          have hq : query_files (QueryResponse.response status (JBody.jarr rs)) =
              Except.ok rs := by
            simp only [query_files, if_neg hs]
          rw [hq]
          simp only [queryRaised, false_iff]
          simp [query_raises_spec, notArrayAfterUnwrap, hs]
        | jother =>
          have hq : query_files (QueryResponse.response status JBody.jother) =
              Except.error "Expected list response" := by
            simp only [query_files, if_neg hs]
          rw [hq]
          simp only [queryRaised, true_iff]
          refine Or.inr (Or.inr (Or.inr (Or.inr ⟨status, JBody.jother, rfl, rfl⟩)))
        | jobj err dat =>
          cases err with
          | some e =>
            have hq : query_files (QueryResponse.response status (JBody.jobj (some e) dat)) =
                Except.error ("API Error: " ++ e) := by
              simp only [query_files, if_neg hs]
            rw [hq]
            simp only [queryRaised, true_iff]
            exact Or.inr (Or.inr (Or.inl ⟨status, e, dat, rfl⟩))
          | none =>
            cases dat with
            | none =>
              have hq : query_files (QueryResponse.response status (JBody.jobj none none)) =
                  Except.error "Unexpected response format" := by
                simp only [query_files, if_neg hs]
              rw [hq]
              simp only [queryRaised, true_iff]
              exact Or.inr (Or.inr (Or.inr (Or.inl ⟨status, rfl⟩)))
            | some d =>
              cases d with
              | jarr rs =>
                have hq : query_files (QueryResponse.response status
                    (JBody.jobj none (some (JBody.jarr rs)))) = Except.ok rs := by
                  simp only [query_files, if_neg hs]
                rw [hq]
                simp only [queryRaised, false_iff]
                simp [query_raises_spec, notArrayAfterUnwrap, hs]
              | jobj e2 d2 =>
                have hq : query_files (QueryResponse.response status
                    (JBody.jobj none (some (JBody.jobj e2 d2)))) =
                    Except.error "Expected list response" := by
                  simp only [query_files, if_neg hs]
                rw [hq]
                simp only [queryRaised, true_iff]
                exact Or.inr (Or.inr (Or.inr (Or.inr
                  ⟨status, JBody.jobj none (some (JBody.jobj e2 d2)), rfl, rfl⟩)))
              | jother =>
                have hq : query_files (QueryResponse.response status
                    (JBody.jobj none (some JBody.jother))) =
                    Except.error "Expected list response" := by
                  simp only [query_files, if_neg hs]
                rw [hq]
                simp only [queryRaised, true_iff]
                exact Or.inr (Or.inr (Or.inr (Or.inr
                  ⟨status, JBody.jobj none (some JBody.jother), rfl, rfl⟩)))
  · intro status rs h
    constructor <;> simp [query_files, h]

/-- Witness for C5: a 200 response returns its record array, bare or
wrapped in a `data` field. -/
theorem query_files_error_conditions_witness :
    query_files (QueryResponse.response 200 (JBody.jarr [])) = Except.ok [] ∧
    query_files (QueryResponse.response 200 (JBody.jobj none (some (JBody.jarr [])))) =
      Except.ok [] :=
  (query_files_error_conditions (QueryResponse.response 200 (JBody.jarr []))).2 200 []
    (by decide)

/-- Helper: removing every copy of `a` from `L` lowers the number of
distinct elements by one exactly when `a` occurs in `L`. -/
theorem length_dedup_filter_ne (a : String) (L : List String) :
    ((L.filter (fun x => x != a)).dedup).length + (if a ∈ L then 1 else 0) =
      L.dedup.length := by
  induction L with
  | nil => simp
  | cons b L ih =>
    by_cases hba : b = a
    · subst hba
      have hf : (b :: L).filter (fun x => x != b) = L.filter (fun x => x != b) := by
        simp [List.filter_cons]
      rw [hf]
      have hm : b ∈ b :: L := List.mem_cons_self b L
      rw [if_pos hm]
      by_cases hbL : b ∈ L
      · rw [List.dedup_cons_of_mem hbL]
        rw [if_pos hbL] at ih
        omega
      · rw [List.dedup_cons_of_not_mem hbL]
        rw [if_neg hbL] at ih
        simp only [List.length_cons]
        omega
    · have hf : (b :: L).filter (fun x => x != a) = b :: L.filter (fun x => x != a) := by
        simp [List.filter_cons, hba]
      rw [hf]
      have hmem : (a ∈ b :: L) ↔ (a ∈ L) := by
        constructor
        · intro h
          rcases List.mem_cons.mp h with h | h
          · exact absurd h.symm hba
          · exact h
        · exact fun h => List.mem_cons_of_mem b h
      have hbf : b ∈ L.filter (fun x => x != a) ↔ b ∈ L := by
        simp [List.mem_filter, hba]
      by_cases hbL : b ∈ L
      · rw [List.dedup_cons_of_mem hbL, List.dedup_cons_of_mem (hbf.mpr hbL)]
        rw [if_congr hmem rfl rfl]
        exact ih
      · rw [List.dedup_cons_of_not_mem hbL, List.dedup_cons_of_not_mem
          (fun h => hbL (hbf.mp h))]
        rw [if_congr hmem rfl rfl]
        simp only [List.length_cons]
        omega

/-- Helper: the deduplication loop keeps one record per distinct truthy
filename not yet seen. -/
theorem dedupAux_length (l : List FileRecord) : ∀ seen : List String,
    (dedupAux seen l).length =
      ((truthyFilenames l).filter (fun x => !(decide (x ∈ seen)))).dedup.length := by
  induction l with
  | nil => intro seen; simp [dedupAux, truthyFilenames]
  | cons r rs ih =>
    intro seen
    cases hfn : r.file_name with
    | none =>
      have h1 : dedupAux seen (r :: rs) = dedupAux seen rs := by
        simp [dedupAux, hfn]
      have h2 : truthyFilenames (r :: rs) = truthyFilenames rs := by
        simp [truthyFilenames, List.filterMap_cons, hfn]
      rw [h1, h2, ih seen]
    | some fn =>
      by_cases hemp : fn = ""
      · have h1 : dedupAux seen (r :: rs) = dedupAux seen rs := by
          simp [dedupAux, hfn, hemp]
        have h2 : truthyFilenames (r :: rs) = truthyFilenames rs := by
          simp [truthyFilenames, List.filterMap_cons, hfn, hemp]
        rw [h1, h2, ih seen]
      · have h2 : truthyFilenames (r :: rs) = fn :: truthyFilenames rs := by
          simp [truthyFilenames, List.filterMap_cons, hfn, hemp]
        by_cases hseen : fn ∈ seen
        · have h1 : dedupAux seen (r :: rs) = dedupAux seen rs := by
            simp [dedupAux, hfn, hemp, hseen]
          have h3 : (truthyFilenames (r :: rs)).filter (fun x => !(decide (x ∈ seen))) =
              (truthyFilenames rs).filter (fun x => !(decide (x ∈ seen))) := by
            rw [h2, List.filter_cons]
            simp [hseen]
          rw [h1, h3, ih seen]
        · have h1 : dedupAux seen (r :: rs) = r :: dedupAux (fn :: seen) rs := by
            simp [dedupAux, hfn, hemp, hseen]
          have h3 : (truthyFilenames (r :: rs)).filter (fun x => !(decide (x ∈ seen))) =
              fn :: (truthyFilenames rs).filter (fun x => !(decide (x ∈ seen))) := by
            rw [h2, List.filter_cons]
            simp [hseen]
          have hfilter : (truthyFilenames rs).filter (fun x => !(decide (x ∈ fn :: seen))) =
              ((truthyFilenames rs).filter (fun x => !(decide (x ∈ seen)))).filter
                (fun x => x != fn) := by
            rw [List.filter_filter]
            apply List.filter_congr
            intro x _
            by_cases hx1 : x = fn <;> by_cases hx2 : x ∈ seen <;>
              simp [hx1, hx2, List.mem_cons]
          have hL := ih (fn :: seen)
          rw [hfilter] at hL
          rw [h1, h3]
          simp only [List.length_cons]
          set L := (truthyFilenames rs).filter (fun x => !(decide (x ∈ seen))) with hLdef
          have key := length_dedup_filter_ne fn L
          by_cases hfnL : fn ∈ L
          · rw [List.dedup_cons_of_mem hfnL]
            rw [if_pos hfnL] at key
            omega
          · rw [List.dedup_cons_of_not_mem hfnL]
            rw [if_neg hfnL] at key
            simp only [List.length_cons]
            omega

/-- Claim C6: `process_files` deduplicates by filename, first occurrence
winning; the removed-duplicate count is the input length minus the
number of distinct non-empty filenames, and on two same-named records it
keeps exactly the first and reports one removed duplicate. -/
theorem process_files_dedup (data : List FileRecord) :
    removedDuplicates data = data.length - ((truthyFilenames data).dedup).length ∧
    (∀ (r1 r2 : FileRecord) (fn : String),
      r1.file_name = some fn → r2.file_name = some fn → fn ≠ "" →
        dedupByFilename [r1, r2] = [r1] ∧ removedDuplicates [r1, r2] = 1) := by
  constructor
  · unfold removedDuplicates dedupByFilename
    rw [dedupAux_length data []]
    have hid : (truthyFilenames data).filter (fun x => !(decide (x ∈ ([] : List String)))) =
        truthyFilenames data :=
      List.filter_eq_self.mpr (fun a _ => by simp)
    rw [hid]
  · intro r1 r2 fn h1 h2 hne
    have hd : dedupByFilename [r1, r2] = [r1] := by
      simp [dedupByFilename, dedupAux, h1, h2, hne]
    exact ⟨hd, by simp [removedDuplicates, hd]⟩

/-- Witness for C6: two records sharing a filename but differing in
size collapse to the first, with removed-duplicate count 1. -/
theorem process_files_dedup_witness :
    dedupByFilename
        [{ file_name := some "GLDS-1_counts.csv", file_size := some 10 },
         { file_name := some "GLDS-1_counts.csv", file_size := some 20 }] =
      [{ file_name := some "GLDS-1_counts.csv", file_size := some 10 }] ∧
    removedDuplicates
        [{ file_name := some "GLDS-1_counts.csv", file_size := some 10 },
         { file_name := some "GLDS-1_counts.csv", file_size := some 20 }] = 1 :=
  (process_files_dedup
      [{ file_name := some "GLDS-1_counts.csv", file_size := some 10 },
       { file_name := some "GLDS-1_counts.csv", file_size := some 20 }]).2
    { file_name := some "GLDS-1_counts.csv", file_size := some 10 }
    { file_name := some "GLDS-1_counts.csv", file_size := some 20 }
    "GLDS-1_counts.csv" rfl rfl (by decide)

/-- Claim C7: with `ext="csv"` the produced URL is the base endpoint
followed by the field specifiers joined with `&` and then, unencoded and
after every field specifier, the literal fragment
`file.file_name=/\.csv$/` (followed only by the optional exclude
fragment). -/
theorem query_builder_csv_literal (osd : String)
    (measurement tech exclude_ext : Option String) :
    build_metadata_query_url osd measurement tech (some "csv") exclude_ext false =
      base_url ++ "/query/metadata/?" ++
      String.intercalate "&"
        ((baseQueryParts osd
          ++ (if optTruthy measurement then [measurementPart (measurement.getD "")] else [])
          ++ (if optTruthy tech then [techPart (tech.getD "")] else []))
         ++ (["file.file_name=/\\.csv$/"] ++
             (if optTruthy exclude_ext then
               ["file.file_name!=/\\." ++ exclude_ext.getD "" ++ "$/"] else []))) := by
  cases hm : optTruthy measurement <;> cases ht : optTruthy tech <;>
    cases hex : optTruthy exclude_ext <;>
      simp only [build_metadata_query_url, baseQueryParts, hm, ht, hex, if_true, if_false,
        Bool.false_eq_true, List.append_nil, List.nil_append] <;> rfl

/-- Helper: hexadecimal digits are never parentheses. -/
theorem hexDigitChar_ne_paren (n : Nat) : hexDigitChar n ≠ '(' ∧ hexDigitChar n ≠ ')' := by
  have h : n % 16 < 16 := Nat.mod_lt _ (by norm_num)
  unfold hexDigitChar
  generalize hk : n % 16 = k at h ⊢
  interval_cases k <;> exact ⟨by decide, by decide⟩

/-- Helper: a percent-escape contains no parenthesis. -/
theorem percentByte_ne_paren (b : Nat) (c : Char) (h : c ∈ percentByte b) :
    c ≠ '(' ∧ c ≠ ')' := by
  simp only [percentByte, List.mem_cons, List.not_mem_nil, or_false] at h
  rcases h with h | h | h
  · subst h; exact ⟨by decide, by decide⟩
  · subst h; exact hexDigitChar_ne_paren (b / 16)
  · subst h; exact hexDigitChar_ne_paren (b % 16)

/-- Helper: `urllib.parse.quote` never emits a parenthesis (parentheses
are not in the safe set, and escapes consist of `%` and hex digits). -/
theorem quoteChar_ne_paren (ch c : Char) (h : c ∈ quoteChar ch) : c ≠ '(' ∧ c ≠ ')' := by
  unfold quoteChar at h
  by_cases hs : isSafeChar ch
  · rw [if_pos hs] at h
    simp only [List.mem_cons, List.not_mem_nil, or_false] at h
    subst h
    constructor <;> intro he <;> rw [he] at hs <;> exact absurd hs (by decide)
  · rw [if_neg hs] at h
    simp only [List.mem_flatMap] at h
    obtain ⟨b, _, hb⟩ := h
    exact percentByte_ne_paren b c hb

/-- Helper: no parenthesis occurs in a quoted string. -/
theorem urlQuote_ne_paren (s : String) (c : Char) (h : c ∈ (urlQuote s).data) :
    c ≠ '(' ∧ c ≠ ')' := by
  have h' : c ∈ s.data.flatMap quoteChar := h
  simp only [List.mem_flatMap] at h'
  obtain ⟨ch, _, hch⟩ := h'
  exact quoteChar_ne_paren ch c hch

/-- Helper: `replaceChar` removes every occurrence of its target when
the replacement avoids it. -/
theorem replaceChar_no_tgt (tgt : Char) (h1 : tgt ≠ '.') (h2 : tgt ≠ '*')
    (l : List Char) : tgt ∉ replaceChar tgt ['.', '*'] l := by
  induction l with
  | nil => simp [replaceChar]
  | cons c cs ih =>
    simp only [replaceChar, List.mem_append]
    rintro (h | h)
    · by_cases hc : c = tgt
      · rw [if_pos hc] at h
        simp only [List.mem_cons, List.not_mem_nil, or_false] at h
        rcases h with h | h
        · exact h1 h
        · exact h2 h
      · rw [if_neg hc] at h
        simp only [List.mem_cons, List.not_mem_nil, or_false] at h
        exact hc (h ▸ rfl)
    · exact ih h

/-- Helper: `replaceChar` introduces no character outside the
replacement list and the untouched originals. -/
theorem replaceChar_preserves_absent (tgt c : Char) (h1 : c ≠ '.') (h2 : c ≠ '*')
    (l : List Char) (hl : c ∉ l) : c ∉ replaceChar tgt ['.', '*'] l := by
  induction l with
  | nil => simp [replaceChar]
  | cons x xs ih =>
    simp only [replaceChar, List.mem_append]
    have hx : c ≠ x := fun he => hl (he ▸ List.mem_cons_self x xs)
    have hxs : c ∉ xs := fun hm => hl (List.mem_cons_of_mem x hm)
    rintro (h | h)
    · by_cases hcx : x = tgt
      · rw [if_pos hcx] at h
        simp only [List.mem_cons, List.not_mem_nil, or_false] at h
        rcases h with h | h
        · exact h1 h
        · exact h2 h
      · rw [if_neg hcx] at h
        simp only [List.mem_cons, List.not_mem_nil, or_false] at h
        exact hx h
    · exact ih hxs h

/-- Helper: `String.append` concatenates the underlying character lists. -/
theorem strData_append (a b : String) : (a ++ b).data = a.data ++ b.data := rfl

/-- Claim C8: parentheses in a measurement value are replaced by
wildcard markers before percent-encoding, so neither the replaced
pattern nor the measurement-type fragment embedded in the produced URL
contains a literal parenthesis; a truthy measurement embeds exactly this
fragment in the URL. -/
theorem query_builder_paren_encoding (m : String) :
    ('(' ∉ (replaceParens m).data ∧ ')' ∉ (replaceParens m).data) ∧
    ('(' ∉ (measurementPart m).data ∧ ')' ∉ (measurementPart m).data) ∧
    (m ≠ "" → ∀ osd : String,
      build_metadata_query_url osd (some m) none none none false =
        base_url ++ "/query/metadata/?" ++
          String.intercalate "&" (baseQueryParts osd ++ [measurementPart m])) := by
  refine ⟨⟨?_, ?_⟩, ⟨?_, ?_⟩, ?_⟩
  · have hin : '(' ∉ replaceChar '(' ['.', '*'] m.data :=
      replaceChar_no_tgt '(' (by decide) (by decide) m.data
    exact replaceChar_preserves_absent ')' '(' (by decide) (by decide) _ hin
  · exact replaceChar_no_tgt ')' (by decide) (by decide) _
  · intro h
    have h' : ('(' : Char) ∈
        ("investigation.study%20assays.study%20assay%20measurement%20type=/" : String).data ++
          ((urlQuote (replaceParens m)).data ++ ("/" : String).data) := by
      have e : (measurementPart m).data =
          ("investigation.study%20assays.study%20assay%20measurement%20type=/" : String).data ++
            ((urlQuote (replaceParens m)).data ++ ("/" : String).data) := by
        unfold measurementPart
        rw [strData_append, strData_append]
        rw [List.append_assoc]
      exact e ▸ h
    rcases List.mem_append.mp h' with h2 | h2
    · exact absurd h2 (by decide)
    · rcases List.mem_append.mp h2 with h3 | h3
      · exact absurd rfl (urlQuote_ne_paren (replaceParens m) '(' h3).1
      · exact absurd h3 (by decide)
  · intro h
    have h' : (')' : Char) ∈
        ("investigation.study%20assays.study%20assay%20measurement%20type=/" : String).data ++
          ((urlQuote (replaceParens m)).data ++ ("/" : String).data) := by
      have e : (measurementPart m).data =
          ("investigation.study%20assays.study%20assay%20measurement%20type=/" : String).data ++
            ((urlQuote (replaceParens m)).data ++ ("/" : String).data) := by
        unfold measurementPart
        rw [strData_append, strData_append]
        rw [List.append_assoc]
      exact e ▸ h
    rcases List.mem_append.mp h' with h2 | h2
    · exact absurd h2 (by decide)
    · rcases List.mem_append.mp h2 with h3 | h3
      · exact absurd rfl (urlQuote_ne_paren (replaceParens m) ')' h3).2
      · exact absurd h3 (by decide)
  · intro hm osd
    have ht : optTruthy (some m) = true := by
      simp [optTruthy, hm]
    have hnone : optTruthy none = false := rfl
    simp only [build_metadata_query_url, ht, hnone, Option.getD_some, if_true, if_false,
      Bool.false_eq_true, List.append_nil, List.nil_append]
    rfl

/-- Witness for C8: the URL for `"transcription profiling (RNA)"`. -/
theorem query_builder_paren_encoding_witness :
    build_metadata_query_url "OSD-101" (some "transcription profiling (RNA)")
        none none none false =
      base_url ++ "/query/metadata/?" ++
        String.intercalate "&" (baseQueryParts "OSD-101" ++
          [measurementPart "transcription profiling (RNA)"]) :=
  (query_builder_paren_encoding "transcription profiling (RNA)").2.2 (by decide) "OSD-101"

/-- Helper: with `list_only` set, a loop step never touches the
download/failure counters or the attempt trace. -/
theorem foldl_processStep_list_only (dl : FileRecord → Bool) (l : List FileRecord) :
    ∀ acc : DownloadStats × List FileRecord,
      (l.foldl (processStep dl true) acc).1.downloaded = acc.1.downloaded ∧
      (l.foldl (processStep dl true) acc).1.failed = acc.1.failed ∧
      (l.foldl (processStep dl true) acc).2 = acc.2 := by
  induction l with
  | nil => intro acc; exact ⟨rfl, rfl, rfl⟩
  | cons r rs ih =>
    intro acc
    have hstep : (processStep dl true acc r).1.downloaded = acc.1.downloaded ∧
        (processStep dl true acc r).1.failed = acc.1.failed ∧
        (processStep dl true acc r).2 = acc.2 := by
      cases hr : r.file_name with
      | none => simp [processStep, hr]
      | some fn =>
        by_cases hfn : fn = "" <;> simp [processStep, hr, hfn]
    rw [List.foldl_cons]
    obtain ⟨h1, h2, h3⟩ := ih (processStep dl true acc r)
    exact ⟨h1.trans hstep.1, h2.trans hstep.2.1, h3.trans hstep.2.2⟩

/-- Claim C9: in `--list` (dry-run) mode `process_files` downloads
nothing: the returned stats report zero downloads and zero failures and
no download attempt is made for any record. -/
theorem process_files_list_only_no_downloads (dl : FileRecord → Bool)
    (data : List FileRecord) :
    (process_files dl data true).1.downloaded = 0 ∧
    (process_files dl data true).1.failed = 0 ∧
    (process_files dl data true).2 = [] := by
  unfold process_files
  by_cases hd : data.isEmpty
  · rw [if_pos hd]
    exact ⟨rfl, rfl, rfl⟩
  · rw [if_neg hd]
    exact foldl_processStep_list_only dl (dedupByFilename data) (⟨0, 0, 0, 0⟩, [])

/-- Helper: one loop step preserves `genelabCount ≤ total`. -/
theorem processStep_genelab_le (dl : FileRecord → Bool) (lo : Bool)
    (acc : DownloadStats × List FileRecord) (r : FileRecord)
    (h : acc.1.genelabCount ≤ acc.1.total) :
    (processStep dl lo acc r).1.genelabCount ≤ (processStep dl lo acc r).1.total := by
  cases hr : r.file_name with
  | none => simpa [processStep, hr] using h
  | some fn =>
    by_cases hfn : fn = ""
    · simpa [processStep, hr, hfn] using h
    · by_cases hg : is_genelab_processed fn (r.data_type.getD "") (r.category.getD "")
          (r.protocol_ref.getD "") <;>
        by_cases hlo : lo <;> by_cases hdl : dl r <;>
          simp [processStep, hr, hfn, hg, hlo, hdl] <;> omega

/-- Helper: one loop step with downloads enabled preserves
`downloaded + failed = total`. -/
theorem processStep_balance (dl : FileRecord → Bool)
    (acc : DownloadStats × List FileRecord) (r : FileRecord)
    (h : acc.1.downloaded + acc.1.failed = acc.1.total) :
    (processStep dl false acc r).1.downloaded + (processStep dl false acc r).1.failed =
      (processStep dl false acc r).1.total := by
  cases hr : r.file_name with
  | none => simpa [processStep, hr] using h
  | some fn =>
    by_cases hfn : fn = ""
    · simpa [processStep, hr, hfn] using h
    · by_cases hdl : dl r <;> simp [processStep, hr, hfn, hdl] <;> omega

/-- Helper: every record added to the attempt trace has a truthy
filename. -/
theorem processStep_trace (dl : FileRecord → Bool) (lo : Bool)
    (acc : DownloadStats × List FileRecord) (r : FileRecord)
    (h : ∀ x ∈ acc.2, ∃ fn, x.file_name = some fn ∧ fn ≠ "") :
    ∀ x ∈ (processStep dl lo acc r).2, ∃ fn, x.file_name = some fn ∧ fn ≠ "" := by
  cases hr : r.file_name with
  | none => simpa [processStep, hr] using h
  | some fn =>
    by_cases hfn : fn = ""
    · simpa [processStep, hr, hfn] using h
    · by_cases hlo : lo
      · simpa [processStep, hr, hfn, hlo] using h
      · by_cases hdl : dl r <;>
          simp only [processStep, hr, hfn, hlo, hdl, Bool.false_eq_true, if_false, if_true,
            if_neg hfn] <;>
        · intro x hx
          rcases List.mem_append.mp hx with hx | hx
          · exact h x hx
          · simp only [List.mem_cons, List.not_mem_nil, or_false] at hx
            exact ⟨fn, hx ▸ hr, hfn⟩

/-- Helper: a loop step on a truthy-filename record increments `total`. -/
theorem processStep_total (dl : FileRecord → Bool) (lo : Bool)
    (acc : DownloadStats × List FileRecord) (r : FileRecord) (fn : String)
    (hfn : r.file_name = some fn) (hne : fn ≠ "") :
    (processStep dl lo acc r).1.total = acc.1.total + 1 := by
  by_cases hlo : lo <;> by_cases hdl : dl r <;> simp [processStep, hfn, hne, hlo, hdl]

/-- Helper: folded `genelabCount ≤ total` invariant. -/
theorem foldl_genelab_le (dl : FileRecord → Bool) (lo : Bool) (l : List FileRecord) :
    ∀ acc : DownloadStats × List FileRecord, acc.1.genelabCount ≤ acc.1.total →
      (l.foldl (processStep dl lo) acc).1.genelabCount ≤
        (l.foldl (processStep dl lo) acc).1.total := by
  induction l with
  | nil => intro acc h; exact h
  | cons r rs ih =>
    intro acc h
    rw [List.foldl_cons]
    exact ih (processStep dl lo acc r) (processStep_genelab_le dl lo acc r h)

/-- Helper: folded `downloaded + failed = total` invariant. -/
theorem foldl_balance (dl : FileRecord → Bool) (l : List FileRecord) :
    ∀ acc : DownloadStats × List FileRecord,
      acc.1.downloaded + acc.1.failed = acc.1.total →
      (l.foldl (processStep dl false) acc).1.downloaded +
        (l.foldl (processStep dl false) acc).1.failed =
        (l.foldl (processStep dl false) acc).1.total := by
  induction l with
  | nil => intro acc h; exact h
  | cons r rs ih =>
    intro acc h
    rw [List.foldl_cons]
    exact ih (processStep dl false acc r) (processStep_balance dl acc r h)

/-- Helper: folded trace-truthiness invariant. -/
theorem foldl_trace (dl : FileRecord → Bool) (lo : Bool) (l : List FileRecord) :
    ∀ acc : DownloadStats × List FileRecord,
      (∀ x ∈ acc.2, ∃ fn, x.file_name = some fn ∧ fn ≠ "") →
      ∀ x ∈ (l.foldl (processStep dl lo) acc).2, ∃ fn, x.file_name = some fn ∧ fn ≠ "" := by
  induction l with
  | nil => intro acc h; exact h
  | cons r rs ih =>
    intro acc h
    rw [List.foldl_cons]
    exact ih (processStep dl lo acc r) (processStep_trace dl lo acc r h)

/-- Helper: over truthy-filename records the fold counts every record. -/
theorem foldl_total (dl : FileRecord → Bool) (lo : Bool) (l : List FileRecord)
    (hl : ∀ r ∈ l, ∃ fn, r.file_name = some fn ∧ fn ≠ "") :
    ∀ acc : DownloadStats × List FileRecord,
      (l.foldl (processStep dl lo) acc).1.total = acc.1.total + l.length := by
  induction l with
  | nil => intro acc; rfl
  | cons r rs ih =>
    intro acc
    rw [List.foldl_cons]
    obtain ⟨fn, hfn, hne⟩ := hl r (List.mem_cons_self r rs)
    rw [ih (fun x hx => hl x (List.mem_cons_of_mem r hx)) (processStep dl lo acc r)]
    rw [processStep_total dl lo acc r fn hfn hne]
    simp only [List.length_cons]
    omega

/-- Helper: every record kept by the deduplication loop has a truthy
filename. -/
theorem dedupAux_truthy (l : List FileRecord) : ∀ (seen : List String) (r : FileRecord),
    r ∈ dedupAux seen l → ∃ fn, r.file_name = some fn ∧ fn ≠ "" := by
  induction l with
  | nil => intro seen r h; simp [dedupAux] at h
  | cons x xs ih =>
    intro seen r h
    cases hx : x.file_name with
    | none =>
      rw [show dedupAux seen (x :: xs) = dedupAux seen xs by simp [dedupAux, hx]] at h
      exact ih seen r h
    | some fn =>
      by_cases hemp : fn = ""
      · rw [show dedupAux seen (x :: xs) = dedupAux seen xs by
          simp [dedupAux, hx, hemp]] at h
        exact ih seen r h
      · by_cases hseen : fn ∈ seen
        · rw [show dedupAux seen (x :: xs) = dedupAux seen xs by
            simp [dedupAux, hx, hemp, hseen]] at h
          exact ih seen r h
        · rw [show dedupAux seen (x :: xs) = x :: dedupAux (fn :: seen) xs by
            simp [dedupAux, hx, hemp, hseen]] at h
          rcases List.mem_cons.mp h with h | h
          · exact ⟨fn, h ▸ hx, hemp⟩
          · exact ih (fn :: seen) r h

/-- Claim C10: the stats of `process_files` always satisfy
`genelabCount ≤ total`; with downloads enabled every counted record is
settled as exactly one of downloaded or failed
(`downloaded + failed = total`); download attempts only happen for
records with a non-empty filename; and `total` counts exactly the
deduplicated records, which excludes records with a missing or empty
filename. -/
theorem process_files_stats_invariant (dl : FileRecord → Bool) (data : List FileRecord)
    (list_only : Bool) :
    (process_files dl data list_only).1.genelabCount ≤
      (process_files dl data list_only).1.total ∧
    (list_only = false →
      (process_files dl data list_only).1.downloaded +
        (process_files dl data list_only).1.failed =
        (process_files dl data list_only).1.total) ∧
    (∀ r ∈ (process_files dl data list_only).2, ∃ fn, r.file_name = some fn ∧ fn ≠ "") ∧
    (process_files dl data list_only).1.total = (dedupByFilename data).length := by
  unfold process_files
  by_cases hd : data.isEmpty
  · rw [if_pos hd]
    have hnil : data = [] := List.isEmpty_eq_true.mp hd
    subst hnil
    exact ⟨Nat.le_refl 0, fun _ => rfl, by simp, rfl⟩
  · rw [if_neg hd]
    refine ⟨foldl_genelab_le dl list_only (dedupByFilename data) (⟨0, 0, 0, 0⟩, [])
        (Nat.le_refl 0), ?_, ?_, ?_⟩
    · intro hlo
      subst hlo
      exact foldl_balance dl (dedupByFilename data) (⟨0, 0, 0, 0⟩, []) rfl
    · exact foldl_trace dl list_only (dedupByFilename data) (⟨0, 0, 0, 0⟩, []) (by simp)
    · rw [foldl_total dl list_only (dedupByFilename data)
        (fun r hr => dedupAux_truthy data [] r hr) (⟨0, 0, 0, 0⟩, [])]
      simp

/-- Witness for C10 at a concrete run with downloads enabled. -/
theorem process_files_stats_invariant_witness :
    (process_files (fun _ => true) [{ file_name := some "a.csv" }] false).1.genelabCount ≤
      (process_files (fun _ => true) [{ file_name := some "a.csv" }] false).1.total ∧
    (process_files (fun _ => true) [{ file_name := some "a.csv" }] false).1.downloaded +
      (process_files (fun _ => true) [{ file_name := some "a.csv" }] false).1.failed =
      (process_files (fun _ => true) [{ file_name := some "a.csv" }] false).1.total ∧
    (process_files (fun _ => true) [{ file_name := some "a.csv" }] false).1.total =
      (dedupByFilename [{ file_name := some "a.csv" }]).length := by
  obtain ⟨h1, h2, h3, h4⟩ :=
    process_files_stats_invariant (fun _ => true) [{ file_name := some "a.csv" }] false
  exact ⟨h1, h2 rfl, h4⟩
